import Mathlib

/-!
Shallow embedding of the topic-aggregation pipeline of `tyler_news`
(`src/gemini_processor.py` and `src/main.py`).

Python dictionaries are embedded as structures whose fields are `Option`s:
an absent key is `none`, and Python's `d.get(k, dflt)` becomes
`field.getD dflt`.  The external generative oracle is abstracted, per call
site, as an explicit outcome argument: either a thrown exception, a
response with no parsable bracketed payload, or the parsed payload itself
(this is exactly the case split the Python code performs on the raw
response text).  Machine integers are `Int` (Python integers are
unbounded, so no modular arithmetic is needed).
-/

namespace TylerNews

/-- A raw Twitter-trend dictionary, as consumed by `merge_and_deduplicate`
(keys accessed there: `topic`, `tweet_count`, `url`, `rank`). -/
structure TrendDict where
  topic : Option String := none
  tweet_count : Option Int := none
  url : Option String := none
  rank : Option Int := none
  deriving DecidableEq, Repr, Inhabited

/-- A raw news-article dictionary, as consumed by `merge_and_deduplicate`
(keys accessed there: `topic`, `summary`, `source`, `url`, `published_at`). -/
structure NewsDict where
  topic : Option String := none
  summary : Option String := none
  source : Option String := none
  url : Option String := none
  published_at : Option String := none
  deriving DecidableEq, Repr, Inhabited

/-- A pipeline topic record (the dictionaries produced by
`merge_and_deduplicate` and annotated by `score_drama`).  Every key that
any pipeline stage reads is a field; `none` means the key is absent. -/
structure Topic where
  topic : Option String := none
  tweet_count : Option Int := none
  summary : Option String := none
  source : Option String := none
  url : Option String := none
  rank : Option Int := none
  published_at : Option String := none
  score : Option Int := none
  score_breakdown : Option String := none
  deriving DecidableEq, Repr, Inhabited

/-- One element of the JSON array parsed inside `score_drama`
(keys accessed there: `index`, `score`, `breakdown`). -/
structure ScoreItem where
  index : Option Int := none
  score : Option Int := none
  breakdown : Option String := none
  deriving DecidableEq, Repr, Inhabited

/-- A script record as built by `_get_fallback_scripts`. -/
structure ScriptIdea where
  hook : String := ""
  premise : String := ""
  punchline : String := ""
  deriving DecidableEq, Repr, Inhabited

/-- Outcome of the oracle call made by `filter_pl_topics`: the call threw
(or `json.loads` failed on the matched text), or the regex
`\x5b[\d,\s]*\x5d` found no match, or it matched and parsed to a list of
integers. -/
inductive FilterOutcome where
  | exn : FilterOutcome
  | noMatch : FilterOutcome
  | parsed : List Int → FilterOutcome
  deriving DecidableEq, Repr

/-- Outcome of the oracle call made by `score_drama`: exception (carrying
`str(e)`), no regex match, or a parsed list of score objects. -/
inductive ScoreOutcome where
  | exn : String → ScoreOutcome
  | noMatch : ScoreOutcome
  | parsed : List ScoreItem → ScoreOutcome
  deriving DecidableEq, Repr

/-- Outcome of the oracle call made by `generate_scripts`. -/
inductive ScriptOutcome where
  | exn : ScriptOutcome
  | noMatch : ScriptOutcome
  | parsed : List ScriptIdea → ScriptOutcome
  deriving DecidableEq, Repr

/-! ## Python string primitives

The handful of Python `str` operations the pipeline uses are embedded as
structural recursion over the character list of the string (extensionally
the Python behavior on the ASCII data the pipeline handles). -/

/-- Python `s.lower()`. -/
def pyLower (s : String) : String :=
  String.mk (s.data.map Char.toLower)

/-- Python `s.strip()`: remove leading and trailing whitespace. -/
def pyStrip (s : String) : String :=
  String.mk (((s.data.dropWhile Char.isWhitespace).reverse.dropWhile Char.isWhitespace).reverse)

/-- Python `s[:n]` for `n ≥ 0`. -/
def pyTake (s : String) (n : Nat) : String :=
  String.mk (s.data.take n)

/-- Helper for `pySplitWords`: accumulate the current word (reversed) and
the words found so far (reversed). -/
def splitWordsAux (cur : List Char) (acc : List String) : List Char → List String
  | [] => if cur = [] then acc.reverse else (String.mk cur.reverse :: acc).reverse
  | c :: cs =>
    if c.isWhitespace then
      if cur = [] then splitWordsAux [] acc cs
      else splitWordsAux [] (String.mk cur.reverse :: acc) cs
    else splitWordsAux (c :: cur) acc cs

/-- Python `s.split()` with no argument: split on whitespace runs,
discarding empty pieces. -/
def pySplitWords (s : String) : List String :=
  splitWordsAux [] [] s.data

/-! ## `merge_and_deduplicate` and `_is_similar` -/

/-- `_is_similar(text1, text2, threshold=0.6)`: Jaccard similarity of the
whitespace-token sets, compared against the threshold.  The source
compares `intersection / union >= 0.6` in floating point; for the integer
operand magnitudes involved (token counts), that float comparison decides
exactly the rational inequality `intersection / union ≥ 6/10`, written
here in the cross-multiplied form `10 * intersection ≥ 6 * union`. -/
def _is_similar (text1 text2 : String) : Bool :=
  let words1 := (pySplitWords text1).toFinset
  let words2 := (pySplitWords text2).toFinset
  if words1 = ∅ ∨ words2 = ∅ then
    false
  else
    let intersection := (words1 ∩ words2).card
    let union := (words1 ∪ words2).card
    if union > 0 then decide (10 * intersection ≥ 6 * union) else false

/-- The dictionary appended for a kept trend record. -/
def trend_entry (t : TrendDict) : Topic :=
  { topic := some (t.topic.getD "")
    tweet_count := t.tweet_count
    source := some "twitter"
    url := some (t.url.getD "")
    rank := some (t.rank.getD 99) }

/-- The dedup key of a trend record: `trend.get("topic", "").lower().strip()`. -/
def trend_key (t : TrendDict) : String :=
  pyStrip (pyLower (t.topic.getD ""))

/-- One iteration of the trend loop of `merge_and_deduplicate`, acting on
the accumulated `(all_topics, seen_topics)` state. -/
def absorb_trend (st : List Topic × List String) (t : TrendDict) :
    List Topic × List String :=
  if trend_key t ≠ "" ∧ trend_key t ∉ st.2 then
    (st.1 ++ [trend_entry t], st.2 ++ [trend_key t])
  else st

/-- `article.get("topic", "").strip()` — the stripped news headline. -/
def news_topic (a : NewsDict) : String :=
  pyStrip (a.topic.getD "")

/-- The dedup key of a news record: the stripped headline, lower-cased. -/
def news_key (a : NewsDict) : String :=
  pyLower (news_topic a)

/-- The dictionary appended for a kept news record. -/
def news_entry (a : NewsDict) : Topic :=
  { topic := some (news_topic a)
    summary := some (a.summary.getD "")
    source := some (a.source.getD "news")
    url := some (a.url.getD "")
    published_at := some (a.published_at.getD "") }

/-- One iteration of the news loop of `merge_and_deduplicate`: the record
is kept unless its key exactly matches or is `_is_similar` to some seen
key, and its stripped headline is non-empty. -/
def absorb_news (st : List Topic × List String) (a : NewsDict) :
    List Topic × List String :=
  let is_duplicate := st.2.any (fun seen => news_key a == seen || _is_similar (news_key a) seen)
  if ¬ is_duplicate ∧ news_topic a ≠ "" then
    (st.1 ++ [news_entry a], st.2 ++ [news_key a])
  else st

/-- `merge_and_deduplicate(trends, news)`: absorb trends first, then news,
threading the `seen_topics` set (embedded as the list of keys in insertion
order; only membership is ever queried). -/
def merge_and_deduplicate (trends : List TrendDict) (news : List NewsDict) :
    List Topic :=
  (news.foldl absorb_news (trends.foldl absorb_trend ([], []))).1

/-! ## `filter_pl_topics` -/

/-- One numbered line of the relevance prompt:
`f"{i+1}. {t.get('topic', '')} - {t.get('summary', '')[:100]}"`. -/
def topic_line (i : Nat) (t : Topic) : String :=
  toString (i + 1) ++ ". " ++ t.topic.getD "" ++ " - " ++ pyTake (t.summary.getD "") 100

/-- The `topics_text` block of the relevance prompt: built from
`topics[:50]` only. -/
def topics_text (topics : List Topic) : String :=
  String.intercalate "\n" ((topics.take 50).enum.map (fun p => topic_line p.1 p.2))

/-- The list comprehension
`[topics[i-1] for i in indices if 1 <= i <= len(topics)]`. -/
def select_by_indices (topics : List Topic) (indices : List Int) : List Topic :=
  indices.filterMap (fun i =>
    if 1 ≤ i ∧ i ≤ (topics.length : Int) then topics[(i - 1).toNat]? else none)

/-- `filter_pl_topics(topics)` as a function of the oracle outcome. -/
def filter_pl_topics (topics : List Topic) (o : FilterOutcome) : List Topic :=
  if topics = [] then []
  else
    match o with
    | .parsed indices => select_by_indices topics indices
    | .noMatch => topics
    | .exn => topics

/-! ## `score_drama` -/

/-- In-place update of one list cell (`topics[idx] = f(topics[idx])`). -/
def modifyAt (l : List α) (n : Nat) (f : α → α) : List α :=
  match l, n with
  | [], _ => []
  | a :: l, 0 => f a :: l
  | a :: l, n + 1 => a :: modifyAt l n f

/-- The two assignments performed for an in-range score item:
`topics[idx]["score"] = item.get("score", 5)` and
`topics[idx]["score_breakdown"] = item.get("breakdown", "")`. -/
def updateScore (item : ScoreItem) (t : Topic) : Topic :=
  { t with score := some (item.score.getD 5), score_breakdown := some (item.breakdown.getD "") }

/-- The application loop of `score_drama`: for each parsed item,
`idx = item.get("index", 0) - 1`, and the topic at `idx` is updated when
`0 <= idx < len(topics)`. -/
def apply_scores (topics : List Topic) (items : List ScoreItem) : List Topic :=
  items.foldl (fun ts item =>
    let idx : Int := item.index.getD 0 - 1
    if 0 ≤ idx ∧ idx < (ts.length : Int) then modifyAt ts idx.toNat (updateScore item)
    else ts) topics

/-- The final pass of the success path: every topic still lacking a
`score` key receives the default score 5. -/
def ensure_scores (ts : List Topic) : List Topic :=
  ts.map (fun t =>
    if t.score = none then
      { t with score := some 5, score_breakdown := some "Default score" }
    else t)

/-- `score_drama(topics)` as a function of the oracle outcome. -/
def score_drama (topics : List Topic) (o : ScoreOutcome) : List Topic :=
  if topics = [] then []
  else
    match o with
    | .parsed items => ensure_scores (apply_scores topics items)
    | .noMatch =>
        topics.map (fun t =>
          { t with score := some 5, score_breakdown := some "Default score (parsing failed)" })
    | .exn e =>
        topics.map (fun t =>
          { t with score := some 5,
                   score_breakdown := some ("Default score (error: " ++ pyTake e 50 ++ ")") })

/-! ## `select_top_topic` -/

/-- The sort key `x.get("score", 0)`. -/
def getScore (t : Topic) : Int :=
  t.score.getD 0

/-- The ordering used by `sorted(..., key=lambda x: x.get("score", 0),
reverse=True)`: descending by score.  Python's `sorted` is stable, and a
stable sort is extensionally unique, so the stable `insertionSort` below
embeds it faithfully. -/
def srel (a b : Topic) : Prop :=
  getScore b ≤ getScore a

instance : DecidableRel srel := fun a b => inferInstanceAs (Decidable (getScore b ≤ getScore a))

/-- The sentinel returned on empty input:
`{"topic": "No topics available", "score": 0}`. -/
def no_topics_sentinel : Topic :=
  { topic := some "No topics available", score := some 0 }

/-- `select_top_topic(scored_topics)`: stable-sort descending by score and
return the first element; on empty input, the sentinel. -/
def select_top_topic (scored_topics : List Topic) : Topic :=
  if scored_topics = [] then no_topics_sentinel
  else (scored_topics.insertionSort srel).headI

/-- The maximum of `x.get("score", 0)` over a list (0 for the empty list,
which `select_top_topic` never reaches). -/
def maxScore : List Topic → Int
  | [] => 0
  | a :: l => l.foldl (fun m t => max m (getScore t)) (getScore a)

/-! ## `generate_scripts` -/

/-- `_get_fallback_scripts(topic)`: the hardcoded triple synthesized from
`topic.get("topic", "This topic")[:30]`. -/
def _get_fallback_scripts (topic : Topic) : List ScriptIdea :=
  let topic_name := topic.topic.getD "This topic"
  [ { hook := "POV: You just saw " ++ pyTake topic_name 30 ++ "..."
      premise := "Show reaction from different fan perspectives"
      punchline := "The beautiful game innit" },
    { hook := "Football Twitter right now:"
      premise := "Compilation of reactions to " ++ pyTake topic_name 30
      punchline := "And they say football is just a game" },
    { hook := "Me explaining to my non-football friends:"
      premise := "Dramatic retelling of " ++ pyTake topic_name 30
      punchline := "You wouldn't understand" } ]

/-- `generate_scripts(topic)` as a function of the oracle outcome: on a
parsed array, the first 3 elements; otherwise the fallback triple. -/
def generate_scripts (topic : Topic) (o : ScriptOutcome) : List ScriptIdea :=
  match o with
  | .parsed scripts => scripts.take 3
  | .noMatch => _get_fallback_scripts topic
  | .exn => _get_fallback_scripts topic

/-! ## `run_pipeline` (src/main.py) -/

/-- The `result` dictionary built by `run_pipeline`. -/
structure RunResult where
  success : Bool := false
  topic : Option String := none
  score : Option Int := none
  scripts : List ScriptIdea := []
  error : Option String := none
  all_scored_topics : List Topic := []
  twitter_count : Nat := 0
  news_count : Nat := 0
  deriving DecidableEq, Repr, Inhabited

/-- Which downstream stages a `run_pipeline` invocation actually reached. -/
structure Trace where
  scoring : Bool := false
  selecting : Bool := false
  generating : Bool := false
  persisting : Bool := false
  deriving DecidableEq, Repr, Inhabited

/-- `run_pipeline` of `src/main.py`, with the two producer results and the
three oracle outcomes as inputs, returning the result dictionary together
with a trace of which stages ran.  The Telegram and Sheets sinks are
external; only the fact that the persistence call is reached is recorded. -/
def run_pipeline (trends : List TrendDict) (news : List NewsDict)
    (filterO : FilterOutcome) (scoreO : ScoreOutcome) (scriptO : ScriptOutcome) :
    RunResult × Trace :=
  let all_topics := merge_and_deduplicate trends news
  let pl_topics := filter_pl_topics all_topics filterO
  if pl_topics = [] then
    ({ twitter_count := trends.length
       news_count := news.length
       error := some "No Premier League topics found" }, {})
  else
    let scored := score_drama pl_topics scoreO
    let sorted := scored.insertionSort srel
    let top := select_top_topic scored
    let scripts := generate_scripts top scriptO
    ({ success := true
       topic := top.topic
       score := top.score
       scripts := scripts
       all_scored_topics := sorted.take 10
       twitter_count := trends.length
       news_count := news.length },
     { scoring := true, selecting := true, generating := true, persisting := true })

/-! ## Concrete fixtures used by witnesses and counterexamples -/

/-- A merged 51-topic list (more than the 50-item prompt cap). -/
def ex51 : List Topic :=
  (List.range 51).map (fun i => { topic := some (toString i) })

/-- The claim C4 example list: scores 5, 8, 8, 3 on distinguishable records. -/
def exScored : List Topic :=
  [ { topic := some "a", score := some 5 },
    { topic := some "b", score := some 8 },
    { topic := some "c", score := some 8 },
    { topic := some "d", score := some 3 } ]

end TylerNews

namespace TylerNews

/-! ## Helper lemmas -/

theorem length_modifyAt (l : List α) (n : Nat) (f : α → α) :
    (modifyAt l n f).length = l.length := by
  induction l generalizing n with
  | nil => rfl
  | cons a l ih =>
    cases n with
    | zero => rfl
    | succ n => simpa [modifyAt] using ih n

theorem mem_modifyAt {l : List α} {n : Nat} {f : α → α} {t : α}
    (h : t ∈ modifyAt l n f) : t ∈ l ∨ ∃ u, u ∈ l ∧ t = f u := by
  induction l generalizing n with
  | nil => simp [modifyAt] at h
  | cons a l ih =>
    cases n with
    | zero =>
      rcases (List.mem_cons).1 h with h1 | h1
      · exact Or.inr ⟨a, List.mem_cons_self a l, h1⟩
      · exact Or.inl (List.mem_cons_of_mem a h1)
    | succ n =>
      rcases (List.mem_cons).1 h with h1 | h1
      · exact Or.inl (h1 ▸ List.mem_cons_self a l)
      · rcases ih h1 with h2 | ⟨u, hu, ht⟩
        · exact Or.inl (List.mem_cons_of_mem a h2)
        · exact Or.inr ⟨u, List.mem_cons_of_mem a hu, ht⟩

/-! ## C8: empty-input sentinel of the selector -/

/-- C8: on empty input `select_top_topic` does not fail but returns the
sentinel record with topic text "No topics available" and score 0. -/
theorem select_top_topic_empty_sentinel :
    select_top_topic [] = no_topics_sentinel ∧
    no_topics_sentinel = { topic := some "No topics available", score := some 0 } :=
  ⟨rfl, rfl⟩

/-! ## C3: the relevance filter fails open -/

/-- C3: for every input list, if the oracle call throws, or its response
contains no parsable bracketed integer list, `filter_pl_topics` returns
exactly its entire input, unchanged and in original order. -/
theorem filter_pl_topics_fail_open (topics : List Topic) :
    filter_pl_topics topics .exn = topics ∧
    filter_pl_topics topics .noMatch = topics := by
  refine ⟨?_, ?_⟩ <;>
  · by_cases h : topics = [] <;> simp [filter_pl_topics, h]

/-! ## C5: script generation falls back to the hardcoded triple -/

/-- C5: if the script-generation oracle throws or its response contains no
bracketed JSON-array substring, `generate_scripts` returns exactly the 3
hardcoded fallback scripts synthesized from the topic's text
(`topic.get("topic", "This topic")[:30]`), each with `hook`, `premise`
and `punchline` fields. -/
theorem generate_scripts_fallback (t : Topic) :
    generate_scripts t .exn = _get_fallback_scripts t ∧
    generate_scripts t .noMatch = _get_fallback_scripts t ∧
    _get_fallback_scripts t =
      [ { hook := "POV: You just saw " ++ pyTake (t.topic.getD "This topic") 30 ++ "..."
          premise := "Show reaction from different fan perspectives"
          punchline := "The beautiful game innit" },
        { hook := "Football Twitter right now:"
          premise := "Compilation of reactions to " ++ pyTake (t.topic.getD "This topic") 30
          punchline := "And they say football is just a game" },
        { hook := "Me explaining to my non-football friends:"
          premise := "Dramatic retelling of " ++ pyTake (t.topic.getD "This topic") 30
          punchline := "You wouldn't understand" } ] ∧
    (generate_scripts t .exn).length = 3 :=
  ⟨rfl, rfl, rfl, rfl⟩

/-! ## C9: empty relevant-set terminates the pipeline distinctly -/

/-- C9: if the relevance filter returns an empty list, `run_pipeline`
terminates in the distinct empty state: `success = false`, the specific
"No Premier League topics found" error, a null winning topic, an empty
script list, and the scoring, selection, script-generation and
persistence stages are never reached. -/
theorem run_pipeline_terminated_empty (trends : List TrendDict) (news : List NewsDict)
    (filterO : FilterOutcome) (scoreO : ScoreOutcome) (scriptO : ScriptOutcome)
    (h : filter_pl_topics (merge_and_deduplicate trends news) filterO = []) :
    run_pipeline trends news filterO scoreO scriptO =
      ({ success := false, topic := none, score := none, scripts := [],
         error := some "No Premier League topics found", all_scored_topics := [],
         twitter_count := trends.length, news_count := news.length },
       { scoring := false, selecting := false, generating := false, persisting := false }) := by
  simp [run_pipeline, h]

/-- Witness for C9 at a concrete input: with no producer results the
merged list is empty, the filter returns `[]`, and the pipeline stops in
the empty state. -/
theorem run_pipeline_terminated_empty_witness :
    filter_pl_topics (merge_and_deduplicate [] []) .exn = [] ∧
    run_pipeline [] [] .exn .noMatch .noMatch =
      ({ success := false, topic := none, score := none, scripts := [],
         error := some "No Premier League topics found", all_scored_topics := [],
         twitter_count := 0, news_count := 0 },
       { scoring := false, selecting := false, generating := false, persisting := false }) :=
  ⟨by decide, run_pipeline_terminated_empty [] [] .exn .noMatch .noMatch (by decide)⟩

/-! ## C2: the news-absorption dedup rule -/

/-- The claim's concrete example is wrong on the code: with seen key
"arsenal lose to brighton", the candidate "arsenal lose away at brighton"
has Jaccard similarity 3/6 = 0.5 < 0.6, so `_is_similar` is `false` and
the candidate is KEPT by the merge, not dropped ("chelsea beat brighton"
is kept as well, as the claim says). -/
theorem merge_dedup_example_counterexample :
    merge_and_deduplicate [{ topic := some "arsenal lose to brighton" }]
        [{ topic := some "arsenal lose away at brighton" },
         { topic := some "chelsea beat brighton" }] =
      [ trend_entry { topic := some "arsenal lose to brighton" },
        news_entry { topic := some "arsenal lose away at brighton" },
        news_entry { topic := some "chelsea beat brighton" } ] ∧
    _is_similar "arsenal lose away at brighton" "arsenal lose to brighton" = false :=
  ⟨by decide, by decide⟩

/-- C2 (amended): a news record is appended by the merge's news loop, and
its key added to the seen set, exactly when its stripped headline is
non-empty and its normalized key is neither an exact match to any seen
key nor `_is_similar` (Jaccard ≥ 0.6 on token sets) to any seen key.
(The claim's "arsenal lose away at brighton" example is at Jaccard
3/6 < 0.6 and is therefore kept, not dropped.) -/
theorem absorb_news_keep_iff (st : List Topic × List String) (a : NewsDict) :
    absorb_news st a = (st.1 ++ [news_entry a], st.2 ++ [news_key a]) ↔
      (news_topic a ≠ "" ∧
       ∀ seen ∈ st.2, news_key a ≠ seen ∧ _is_similar (news_key a) seen = false) := by
  have hdup : (¬ st.2.any (fun seen => news_key a == seen || _is_similar (news_key a) seen) = true) ↔
      (∀ seen ∈ st.2, news_key a ≠ seen ∧ _is_similar (news_key a) seen = false) := by
    simp [List.any_eq_true, not_or]
  simp only [absorb_news]
  split_ifs with hc
  · exact iff_of_true rfl ⟨hc.2, hdup.mp hc.1⟩
  · refine iff_of_false (fun he => ?_) (fun hr => hc ⟨hdup.mpr hr.2, hr.1⟩)
    have := congrArg (fun p => p.2.length) he
    simp at this

/-- Witness for C2's amended rule at a concrete input: "chelsea beat
brighton" is neither equal nor similar to the seen key, so it is kept. -/
theorem absorb_news_keep_iff_witness :
    absorb_news ([], ["arsenal lose to brighton"]) { topic := some "chelsea beat brighton" } =
      ([news_entry { topic := some "chelsea beat brighton" }],
       ["arsenal lose to brighton", "chelsea beat brighton"]) :=
  (absorb_news_keep_iff ([], ["arsenal lose to brighton"])
    { topic := some "chelsea beat brighton" }).mpr (by decide)

/-! ## C6: the 50-item cap of the relevance filter -/

/-- The claim is wrong on the code: with 51 input topics and a throwing
oracle, the fail-open path returns all 51 items, including the one past
the 50-item cap; and a parsed index of 51 (valid against
`len(topics)`, not against the cap) returns the 51st item. -/
theorem filter_cap_counterexample :
    filter_pl_topics ex51 .exn = ex51 ∧
    ex51.length = 51 ∧
    filter_pl_topics ex51 (.parsed [51]) = [{ topic := some "50" }] :=
  ⟨by decide, by decide, by decide⟩

/-- C6 (amended): items past the 50-item cap are excluded only from the
prompt shown to the oracle (`topics_text` depends on the first 50 items
alone); they can still be returned: the fail-open path returns the entire
input, and any parsed index `i` with `1 ≤ i ≤ len(topics)` — including
`i > 50` — returns the i-th input record. -/
theorem filter_cap_amended (topics : List Topic) (i : Int)
    (h1 : 1 ≤ i) (h2 : i ≤ (topics.length : Int)) :
    topics_text topics = topics_text (topics.take 50) ∧
    filter_pl_topics topics .exn = topics ∧
    filter_pl_topics topics (.parsed [i]) = (topics[(i - 1).toNat]?).toList := by
  have hne : topics ≠ [] := by
    rintro rfl
    simp at h2
    omega
  refine ⟨?_, ?_, ?_⟩
  · simp [topics_text, List.take_take]
  · simp [filter_pl_topics, hne]
  · have hn : i.toNat - 1 < topics.length := by omega
    have hsome : topics[i.toNat - 1]? = some (topics[i.toNat - 1]) :=
      List.getElem?_eq_getElem hn
    simp [filter_pl_topics, hne, select_by_indices, List.filterMap_cons, h1, h2, hsome]

/-- Witness for C6's amended statement at the 51-topic fixture with the
past-cap index 51. -/
theorem filter_cap_amended_witness :
    (1 : Int) ≤ 51 ∧ (51 : Int) ≤ (ex51.length : Int) ∧
    (topics_text ex51 = topics_text (ex51.take 50) ∧
     filter_pl_topics ex51 .exn = ex51 ∧
     filter_pl_topics ex51 (.parsed [51]) = (ex51[((51 : Int) - 1).toNat]?).toList) :=
  ⟨by decide, by decide, filter_cap_amended ex51 51 (by decide) (by decide)⟩

/-! ## C7: is the filter's parsed output a subsequence? -/

/-- The claim is wrong on the code: the output follows the oracle's index
order and keeps duplicate indices.  With input `[A, B]`, the parsed index
list `[1, 1]` returns `[A, A]` (A appears twice though it occurs once in
the input), and `[2, 1]` returns `[B, A]` (original order not
preserved). -/
theorem filter_subsequence_counterexample :
    filter_pl_topics [{ topic := some "a" }, { topic := some "b" }] (.parsed [1, 1]) =
      [{ topic := some "a" }, { topic := some "a" }] ∧
    ((filter_pl_topics [{ topic := some "a" }, { topic := some "b" }]
        (.parsed [1, 1])).count { topic := some "a" } = 2 ∧
      ([{ topic := some "a" }, { topic := some "b" }] : List Topic).count
        { topic := some "a" } = 1) ∧
    filter_pl_topics [{ topic := some "a" }, { topic := some "b" }] (.parsed [2, 1]) =
      [{ topic := some "b" }, { topic := some "a" }] :=
  ⟨by decide, ⟨by decide, by decide⟩, by decide⟩

theorem select_by_indices_sublist_drop :
    ∀ (indices : List Int) (topics : List Topic) (k : Nat),
      indices.Pairwise (fun a b => a < b) →
      (∀ j ∈ indices, 1 ≤ j → (k : Int) < j) →
      (select_by_indices topics indices).Sublist (topics.drop k)
  | [], _, _, _, _ => by simp [select_by_indices]
  | i :: rest, topics, k, hp, hk => by
    have hp' : rest.Pairwise (fun a b => a < b) := hp.of_cons
    have hik : ∀ j ∈ rest, i < j := fun j hj => List.rel_of_pairwise_cons hp hj
    by_cases hC : 1 ≤ i ∧ i ≤ (topics.length : Int)
    · have hn : i.toNat - 1 < topics.length := by omega
      have hsome : topics[i.toNat - 1]? = some (topics[i.toNat - 1]) :=
        List.getElem?_eq_getElem hn
      have hstep : select_by_indices topics (i :: rest) =
          topics[i.toNat - 1] :: select_by_indices topics rest := by
        simp [select_by_indices, List.filterMap_cons, hC, hsome]
      have hrest : (select_by_indices topics rest).Sublist (topics.drop ((i.toNat - 1) + 1)) :=
        select_by_indices_sublist_drop rest topics ((i.toNat - 1) + 1) hp'
          (fun j hj _ => by have := hik j hj; omega)
      have hcons : (topics[i.toNat - 1] :: select_by_indices topics rest).Sublist
          (topics.drop (i.toNat - 1)) := by
        rw [List.drop_eq_getElem_cons hn]
        exact hrest.cons₂ _
      have hkn : k ≤ i.toNat - 1 := by
        have := hk i (List.mem_cons_self i rest) hC.1
        omega
      have hdropdrop : topics.drop (i.toNat - 1) = (topics.drop k).drop ((i.toNat - 1) - k) := by
        rw [List.drop_drop]
        congr 1
        omega
      rw [hstep]
      refine hcons.trans ?_
      rw [hdropdrop]
      exact List.drop_sublist _ _
    · have hstep : select_by_indices topics (i :: rest) = select_by_indices topics rest := by
        simp [select_by_indices, List.filterMap_cons, hC]
      rw [hstep]
      exact select_by_indices_sublist_drop rest topics k hp'
        (fun j hj h1 => hk j (List.mem_cons_of_mem i hj) h1)

/-- C7 (amended): the filter's parsed output is the oracle's index list
mapped through the input in the oracle's order (duplicates preserved,
out-of-range indices silently discarded); whenever the oracle's index
list is strictly increasing, the output is a subsequence of the input —
original relative order, no record repeated beyond its input
multiplicity. -/
theorem filter_parsed_sorted_sublist (topics : List Topic) (indices : List Int)
    (h : indices.Pairwise (fun a b => a < b)) :
    (filter_pl_topics topics (.parsed indices)).Sublist topics := by
  by_cases hne : topics = []
  · subst hne
    simp [filter_pl_topics]
  · have h0 := select_by_indices_sublist_drop indices topics 0 h
      (fun j _ h1 => by omega)
    simpa [filter_pl_topics, hne] using h0

/-- Witness for C7's amended statement: strictly increasing indices on a
two-element input give a genuine subsequence. -/
theorem filter_parsed_sorted_sublist_witness :
    (([1, 2] : List Int).Pairwise (fun a b => a < b)) ∧
    (filter_pl_topics [{ topic := some "a" }, { topic := some "b" }] (.parsed [1, 2])).Sublist
      [{ topic := some "a" }, { topic := some "b" }] :=
  ⟨by decide, filter_parsed_sorted_sublist _ _ (by decide)⟩

/-! ## C1: scorer length preservation and score range -/

theorem length_apply_scores : ∀ (items : List ScoreItem) (topics : List Topic),
    (apply_scores topics items).length = topics.length
  | [], _ => rfl
  | it :: items, topics => by
    have hstep : apply_scores topics (it :: items) =
        apply_scores
          (if 0 ≤ it.index.getD 0 - 1 ∧ it.index.getD 0 - 1 < (topics.length : Int)
           then modifyAt topics (it.index.getD 0 - 1).toNat (updateScore it)
           else topics) items := rfl
    rw [hstep, length_apply_scores items]
    split_ifs with h
    · exact length_modifyAt topics _ _
    · rfl

theorem mem_apply_scores : ∀ (items : List ScoreItem) (topics : List Topic),
    (∀ u ∈ topics, u.score = none ∨ ∃ s, u.score = some s ∧ 1 ≤ s ∧ s ≤ 10) →
    (∀ it ∈ items, 1 ≤ it.score.getD 5 ∧ it.score.getD 5 ≤ 10) →
    ∀ t ∈ apply_scores topics items,
      t.score = none ∨ ∃ s, t.score = some s ∧ 1 ≤ s ∧ s ≤ 10
  | [], _, ht, _ => ht
  | it :: items, topics, ht, hi => by
    have hstep : apply_scores topics (it :: items) =
        apply_scores
          (if 0 ≤ it.index.getD 0 - 1 ∧ it.index.getD 0 - 1 < (topics.length : Int)
           then modifyAt topics (it.index.getD 0 - 1).toNat (updateScore it)
           else topics) items := rfl
    rw [hstep]
    refine mem_apply_scores items _ ?_ (fun j hj => hi j (List.mem_cons_of_mem it hj))
    split_ifs with h
    · intro u hu
      rcases mem_modifyAt hu with h1 | ⟨v, _, rfl⟩
      · exact ht u h1
      · exact Or.inr ⟨it.score.getD 5, rfl,
          (hi it (List.mem_cons_self it items)).1, (hi it (List.mem_cons_self it items)).2⟩
    · exact ht

theorem mem_ensure_scores_isSome (l : List Topic) :
    ∀ t ∈ ensure_scores l, t.score ≠ none := by
  intro t ht
  rcases List.mem_map.1 ht with ⟨u, _, rfl⟩
  by_cases h : u.score = none
  · simp [ensure_scores, h]
  · simp [ensure_scores, h]

theorem mem_ensure_scores (l : List Topic)
    (hl : ∀ u ∈ l, u.score = none ∨ ∃ s, u.score = some s ∧ 1 ≤ s ∧ s ≤ 10) :
    ∀ t ∈ ensure_scores l, ∃ s, t.score = some s ∧ 1 ≤ s ∧ s ≤ 10 := by
  intro t ht
  rcases List.mem_map.1 ht with ⟨u, hu, rfl⟩
  by_cases h : u.score = none
  · refine ⟨5, ?_, by norm_num, by norm_num⟩
    simp [ensure_scores, h]
  · rcases hl u hu with h0 | ⟨s, hs, h1, h2⟩
    · exact absurd h0 h
    · refine ⟨s, ?_, h1, h2⟩
      simp [ensure_scores, h, hs]

/-- The claim is wrong on the code: the oracle's score value is copied
through unchecked, so a parsed item with score 11 puts an out-of-range
score on the topic. -/
theorem score_drama_range_counterexample :
    score_drama [{ topic := some "a" }] (.parsed [{ index := some 1, score := some 11 }]) =
      [{ topic := some "a", score := some 11, score_breakdown := some "" }] ∧
    ¬ ((11 : Int) ≤ 10) :=
  ⟨by decide, by decide⟩

/-- C1 (amended): for every input list and every oracle outcome, the
scorer preserves length and every output element carries a `score` key —
both unconditionally; and, provided the input records carry no
pre-existing `score` key and every score value in the parsed oracle items
(defaulting to 5 when the item lacks one) lies in [1,10], every output
score lies in [1,10].  (The code copies oracle score values through
without range-checking, so the bound cannot hold for arbitrary parsed
responses.) -/
theorem score_drama_length_and_range (topics : List Topic) (o : ScoreOutcome) :
    (score_drama topics o).length = topics.length ∧
    (∀ t ∈ score_drama topics o, t.score ≠ none) ∧
    ((∀ u ∈ topics, u.score = none) →
     (∀ items, o = ScoreOutcome.parsed items →
        ∀ it ∈ items, 1 ≤ it.score.getD 5 ∧ it.score.getD 5 ≤ 10) →
     ∀ t ∈ score_drama topics o, ∃ s, t.score = some s ∧ 1 ≤ s ∧ s ≤ 10) := by
  by_cases hne : topics = []
  · subst hne
    simp [score_drama]
  · cases o with
    | parsed items =>
      have h1 : score_drama topics (.parsed items) =
          ensure_scores (apply_scores topics items) := by
        simp [score_drama, hne]
      refine ⟨?_, ?_, ?_⟩
      · rw [h1]
        simp [ensure_scores, length_apply_scores]
      · rw [h1]
        exact mem_ensure_scores_isSome _
      · intro hns hok
        rw [h1]
        exact mem_ensure_scores _
          (mem_apply_scores items topics (fun u hu => Or.inl (hns u hu)) (hok items rfl))
    | noMatch =>
      have h1 : score_drama topics .noMatch = topics.map (fun t =>
          { t with score := some 5,
                   score_breakdown := some "Default score (parsing failed)" }) := by
        simp [score_drama, hne]
      refine ⟨by simp [h1], ?_, ?_⟩
      · intro t ht
        rw [h1] at ht
        rcases List.mem_map.1 ht with ⟨u, _, rfl⟩
        simp
      · intro _ _ t ht
        rw [h1] at ht
        rcases List.mem_map.1 ht with ⟨u, _, rfl⟩
        exact ⟨5, rfl, by norm_num, by norm_num⟩
    | exn e =>
      have h1 : score_drama topics (.exn e) = topics.map (fun t =>
          { t with score := some 5,
                   score_breakdown := some ("Default score (error: " ++ pyTake e 50 ++ ")") }) := by
        simp [score_drama, hne]
      refine ⟨by simp [h1], ?_, ?_⟩
      · intro t ht
        rw [h1] at ht
        rcases List.mem_map.1 ht with ⟨u, _, rfl⟩
        simp
      · intro _ _ t ht
        rw [h1] at ht
        rcases List.mem_map.1 ht with ⟨u, _, rfl⟩
        exact ⟨5, rfl, by norm_num, by norm_num⟩

/-- Witness for C1's amended statement: one unscored topic, one in-range
parsed item; the length and score-presence conclusions come from the
theorem with no side conditions, and the range conclusion is obtained by
discharging its two provisos at this input. -/
theorem score_drama_length_and_range_witness :
    (∀ u ∈ ([{ topic := some "a" }] : List Topic), u.score = none) ∧
    ((score_drama [{ topic := some "a" }]
        (.parsed [{ index := some 1, score := some 8, breakdown := some "big" }])).length =
      ([{ topic := some "a" }] : List Topic).length) ∧
    (∀ t ∈ score_drama [{ topic := some "a" }]
        (.parsed [{ index := some 1, score := some 8, breakdown := some "big" }]),
       t.score ≠ none) ∧
    (∀ t ∈ score_drama [{ topic := some "a" }]
        (.parsed [{ index := some 1, score := some 8, breakdown := some "big" }]),
       ∃ s, t.score = some s ∧ 1 ≤ s ∧ s ≤ 10) :=
  ⟨by decide,
   (score_drama_length_and_range [{ topic := some "a" }]
     (.parsed [{ index := some 1, score := some 8, breakdown := some "big" }])).1,
   (score_drama_length_and_range [{ topic := some "a" }]
     (.parsed [{ index := some 1, score := some 8, breakdown := some "big" }])).2.1,
   (score_drama_length_and_range [{ topic := some "a" }]
     (.parsed [{ index := some 1, score := some 8, breakdown := some "big" }])).2.2
     (by decide) (by intro items h; cases h; decide)⟩

/-! ## C4 and C10: the selector picks the first maximum -/

theorem foldl_max_shift (x : Int) : ∀ (y : Int) (l : List Topic),
    l.foldl (fun m t => max m (getScore t)) (max x y) =
      max x (l.foldl (fun m t => max m (getScore t)) y)
  | _, [] => rfl
  | y, t :: l => by
    show l.foldl _ (max (max x y) (getScore t)) = max x (l.foldl _ (max y (getScore t)))
    rw [max_assoc]
    exact foldl_max_shift x (max y (getScore t)) l

theorem maxScore_cons (a : Topic) (l : List Topic) (h : l ≠ []) :
    maxScore (a :: l) = max (getScore a) (maxScore l) := by
  cases l with
  | nil => exact absurd rfl h
  | cons b l' =>
    show l'.foldl _ (max (getScore a) (getScore b)) =
      max (getScore a) (l'.foldl _ (getScore b))
    exact foldl_max_shift (getScore a) (getScore b) l'

theorem le_maxScore : ∀ (l : List Topic) (t : Topic), t ∈ l → getScore t ≤ maxScore l
  | a :: l, t, ht => by
    cases l with
    | nil =>
      have : t = a := by simpa using ht
      subst this
      exact le_refl _
    | cons b l' =>
      rw [maxScore_cons a (b :: l') (by simp)]
      rcases List.mem_cons.1 ht with rfl | h
      · exact le_max_left _ _
      · exact le_trans (le_maxScore (b :: l') t h) (le_max_right _ _)

theorem maxScore_zero_of_none : ∀ (l : List Topic), (∀ t ∈ l, t.score = none) →
    maxScore l = 0
  | [], _ => rfl
  | a :: l, h => by
    cases l with
    | nil =>
      show getScore a = 0
      simp [getScore, h a (List.mem_cons_self _ _)]
    | cons b l' =>
      rw [maxScore_cons a (b :: l') (by simp),
        maxScore_zero_of_none (b :: l') (fun t ht => h t (List.mem_cons_of_mem _ ht))]
      simp [getScore, h a (List.mem_cons_self _ _)]

theorem select_top_topic_cons (a : Topic) (l : List Topic) :
    select_top_topic (a :: l) = ((a :: l).insertionSort srel).headI := by
  unfold select_top_topic
  rw [if_neg (by simp)]

theorem select_top_eq_first_max : ∀ (l : List Topic), l ≠ [] →
    List.find? (fun t => getScore t == maxScore l) l = some (select_top_topic l)
  | [], h => absurd rfl h
  | [a], _ => by
    have hpa : (getScore a == maxScore [a]) = true := by
      show (getScore a == getScore a) = true
      simp
    simp only [List.find?_cons, hpa]
    rfl
  | a :: b :: l, _ => by
    have hbl : (b :: l) ≠ [] := by simp
    have hfind := select_top_eq_first_max (b :: l) hbl
    have hL : List.insertionSort srel (b :: l) ≠ [] := by
      intro h0
      have hlen := (List.perm_insertionSort srel (b :: l)).length_eq
      rw [h0] at hlen
      simp at hlen
    obtain ⟨h', t', hsort⟩ := List.exists_cons_of_ne_nil hL
    rw [select_top_topic_cons, hsort] at hfind
    have hfind' : List.find? (fun t => getScore t == maxScore (b :: l)) (b :: l) =
        some h' := hfind
    have hgh' : getScore h' = maxScore (b :: l) := by
      have := List.find?_some hfind'
      simpa using this
    have hsort2 : List.insertionSort srel (a :: b :: l) =
        List.orderedInsert srel a (h' :: t') := by
      show List.orderedInsert srel a (List.insertionSort srel (b :: l)) =
        List.orderedInsert srel a (h' :: t')
      rw [hsort]
    have hmax : maxScore (a :: b :: l) = max (getScore a) (maxScore (b :: l)) :=
      maxScore_cons a (b :: l) hbl
    by_cases hcase : maxScore (b :: l) ≤ getScore a
    · have hsrel : srel a h' := by
        show getScore h' ≤ getScore a
        rw [hgh']
        exact hcase
      have hselA : select_top_topic (a :: b :: l) = a := by
        rw [select_top_topic_cons, hsort2, List.orderedInsert_of_le srel t' hsrel]
        rfl
      have hmaxA : maxScore (a :: b :: l) = getScore a := by
        rw [hmax]
        exact max_eq_left hcase
      have hpa : (getScore a == maxScore (a :: b :: l)) = true := by
        rw [hmaxA]
        simp
      simp only [List.find?_cons, hpa, hselA]
    · have hlt : getScore a < maxScore (b :: l) := not_le.1 hcase
      have hnsrel : ¬ srel a h' := by
        show ¬ getScore h' ≤ getScore a
        rw [hgh']
        exact not_le.2 hlt
      have hoi : List.orderedInsert srel a (h' :: t') =
          h' :: List.orderedInsert srel a t' := by
        simp [List.orderedInsert, hnsrel]
      have hselH : select_top_topic (a :: b :: l) = h' := by
        rw [select_top_topic_cons, hsort2, hoi]
        rfl
      have hmaxH : maxScore (a :: b :: l) = maxScore (b :: l) := by
        rw [hmax]
        exact max_eq_right (le_of_lt hlt)
      have hpa : (getScore a == maxScore (a :: b :: l)) = false := by
        rw [hmaxH]
        exact beq_eq_false_iff_ne.2 (ne_of_lt hlt)
      rw [List.find?_cons, hpa]
      show List.find? (fun t => getScore t == maxScore (a :: b :: l)) (b :: l) =
        some (select_top_topic (a :: b :: l))
      rw [hselH]
      simp only [hmaxH]
      exact hfind'

/-- C4: for every non-empty list, `select_top_topic` returns the earliest
element (by original position) whose `score` (via `get("score", 0)`)
equals the maximum score of the list — i.e. the first of a tied maximum,
per Python's stable descending sort. -/
theorem select_top_topic_first_max (l : List Topic) (h : l ≠ []) :
    List.find? (fun t => getScore t == maxScore l) l = some (select_top_topic l) :=
  select_top_eq_first_max l h

/-- Witness for C4 at the claim's example `[5, 8, 8, 3]`: the selector
returns the second element (the first of the tied maximum 8), never the
third. -/
theorem select_top_topic_first_max_witness :
    exScored ≠ [] ∧
    List.find? (fun t => getScore t == maxScore exScored) exScored =
      some (select_top_topic exScored) ∧
    select_top_topic exScored = { topic := some "b", score := some 8 } :=
  ⟨by decide, select_top_topic_first_max exScored (by decide), by decide⟩

/-- C10: the selector ranks a record lacking a `score` key as score 0: on
a non-empty list where no record has a score, it returns the first
element; and whenever some record has score ≥ 1, the selected record
cannot be one lacking a `score` key. -/
theorem select_top_topic_missing_score (l : List Topic) (h : l ≠ []) :
    ((∀ t ∈ l, t.score = none) → select_top_topic l = l.headI) ∧
    (∀ u ∈ l, 1 ≤ getScore u → (select_top_topic l).score ≠ none) := by
  have hfind := select_top_eq_first_max l h
  have hg : getScore (select_top_topic l) = maxScore l := by
    have := List.find?_some hfind
    simpa using this
  constructor
  · intro hall
    obtain ⟨a, l', rfl⟩ := List.exists_cons_of_ne_nil h
    have hmz : maxScore (a :: l') = 0 := maxScore_zero_of_none _ hall
    have hpa : (getScore a == maxScore (a :: l')) = true := by
      rw [hmz]
      simp [getScore, hall a (List.mem_cons_self _ _)]
    rw [List.find?_cons] at hfind
    simp only [hpa] at hfind
    have ha := Option.some.inj hfind
    show select_top_topic (a :: l') = (a :: l').headI
    exact ha.symm
  · intro u hu h1 hnone
    have hle : getScore u ≤ maxScore l := le_maxScore l u hu
    have h0 : maxScore l = 0 := by
      rw [← hg]
      simp [getScore, hnone]
    omega

/-- Witness for C10 on a concrete all-unscored two-element list: the
first element is selected. -/
theorem select_top_topic_missing_score_witness :
    (([{ topic := some "x" }, { topic := some "y" }] : List Topic) ≠ []) ∧
    (((∀ t ∈ ([{ topic := some "x" }, { topic := some "y" }] : List Topic), t.score = none) →
        select_top_topic [{ topic := some "x" }, { topic := some "y" }] =
          ([{ topic := some "x" }, { topic := some "y" }] : List Topic).headI) ∧
     (∀ u ∈ ([{ topic := some "x" }, { topic := some "y" }] : List Topic),
        1 ≤ getScore u →
        (select_top_topic [{ topic := some "x" }, { topic := some "y" }]).score ≠ none)) :=
  ⟨by decide, select_top_topic_missing_score _ (by decide)⟩

end TylerNews
